import Mathlib

/-!
# Verification of gocbcore's operation-lifecycle and configuration layer

Shallow embedding of the parts of the `gocbcore` repository needed by the
frozen claims:

* a settlement state machine for pending operations (cancellation, deadline,
  completion races) — the Pending Operation Registry is not part of the
  visible source fragment (only its tests are), so it is modelled from the
  spec, §4.1/§9;
* a streaming row reader (spec §4.5, `AnalyticsRowReader` is not in the
  visible fragment);
* a circuit breaker (spec §4.3);
* `AgentConfig.FromConnStr` and `AgentConfig.redacted`, translated directly
  from `agent_config.go`.
-/

namespace Gocbcore

/-! ## Settlement of pending operations (spec §4.1, §9)

Modelled from the spec: the Pending Operation Registry's code is not in the
visible source fragment (only `TestAnalyticsCancel` / `TestAnalyticsTimeout`
call it).  The spec prescribes a single-fire settlement guard: a tagged
state with compare-and-swap so that whichever of cancel, deadline expiry and
natural completion arrives first wins, and all later arrivals are no-ops.
Concurrency is modelled by quantifying over every interleaving, i.e. every
finite sequence in which the settlement events can be observed to arrive. -/

/-- Modelled from the spec: the four settlement outcomes of §4.1 — a result,
`RequestCanceled`, `Timeout`, or a terminal non-retryable failure. -/
inductive Outcome where
  | result (payload : List Nat)
  | requestCanceled
  | timeout
  | terminalFailure (code : Nat)
deriving DecidableEq, Repr

/-- Modelled from the spec: the mutable tracking record of a pending
operation — a single-fire completion slot plus a count of how many times the
completion callback has been invoked. -/
structure PendingOp where
  settled : Option Outcome
  callbackFires : Nat
deriving DecidableEq, Repr

/-- A freshly accepted operation: not yet settled, callback never fired. -/
def PendingOp.fresh : PendingOp := { settled := none, callbackFires := 0 }

/-- Modelled from the spec: the single-fire settlement guard.  The first
arriving event (cancel, timeout, or network completion) wins and fires the
callback; any event arriving at an already-settled operation is a no-op. -/
def settle (op : PendingOp) (o : Outcome) : PendingOp :=
  match op.settled with
  | some _ => op
  | none => { settled := some o, callbackFires := op.callbackFires + 1 }

/-- Applies a sequence of settlement events (one interleaving of the
concurrent arrivals) to a pending operation. -/
def runEvents (op : PendingOp) (events : List Outcome) : PendingOp :=
  events.foldl settle op

/-- True when the operation has delivered a result to the caller. -/
def PendingOp.deliveredResult (op : PendingOp) : Bool :=
  match op.settled with
  | some (Outcome.result _) => true
  | _ => false

/-! ## Deadline-bounded dispatch (spec §4.1 deadlines, §8 timeout precedence)

Modelled from the spec: each pending operation owns a timer armed at its
absolute caller-supplied deadline; the timer firing behaves like a
cancellation yielding `Timeout`.  An operation whose deadline is already
past at submission settles with `Timeout` without performing network I/O.
Time is an integer clock; `netTime` is the instant at which the network
exchange would complete with `payload`. -/

/-- Modelled from the spec: dispatch of one operation under an absolute
deadline.  Returns the settlement outcome and whether network I/O was
performed.  A deadline not after `now` settles `Timeout` immediately with no
I/O; otherwise the exchange is attempted and the deadline timer wins
whenever it fires before the network completion arrives. -/
def dispatchWithDeadline (now deadline netTime : Int) (payload : List Nat) :
    Outcome × Bool :=
  if deadline ≤ now then
    (Outcome.timeout, false)
  else if netTime ≤ deadline then
    (Outcome.result payload, true)
  else
    (Outcome.timeout, true)

/-! ## Streaming row reader (spec §4.5)

Modelled from the spec: `AnalyticsRowReader` is absent from the visible
fragment (only `hlpRunAnalyticsQuery` consumes it).  The reader consumes a
chunked body incrementally; rows become visible as soon as fully parsed; a
well-formed body ends in a terminator; a body that ends without a
terminator (truncated) or contains undecodable bytes (malformed) sets the
terminal error slot, never yielding a partial row; past end-of-stream every
`next()` returns end-of-stream and `err()` reports the terminal error. -/

/-- Modelled from the spec: a unit of the chunked response body, as the
incremental decoder classifies it — a fully received and parsed row, the
end-of-body terminator, or undecodable (malformed) bytes. -/
inductive Chunk where
  | row (r : List Nat)
  | endMarker
  | garbage
deriving DecidableEq, Repr

/-- Terminal errors a streamed response can end with. -/
inductive StreamErr where
  | truncated
  | malformed
deriving DecidableEq, Repr

/-- Modelled from the spec: `RowStreamState` — the not-yet-consumed part of
the body, the terminal error slot (set at most once), and the end-of-stream
flag. -/
structure RowReader where
  pending : List Chunk
  errSlot : Option StreamErr
  ended : Bool
deriving DecidableEq, Repr

/-- Opens a reader on a (possibly truncated or malformed) chunked body. -/
def RowReader.open (body : List Chunk) : RowReader :=
  { pending := body, errSlot := none, ended := false }

/-- Modelled from the spec: `next() -> row or end-of-stream`.  Yields the
next fully parsed row; at the terminator, end of body, or malformed bytes it
transitions to end-of-stream (recording the terminal error when the body was
truncated or malformed) and every later call returns end-of-stream. -/
def RowReader.nextRow (s : RowReader) : Option (List Nat) × RowReader :=
  if s.ended then
    (none, s)
  else
    match s.pending with
    | [] => (none, { s with ended := true, errSlot := some StreamErr.truncated })
    | Chunk.row r :: rest => (some r, { s with pending := rest })
    | Chunk.endMarker :: _ => (none, { s with ended := true })
    | Chunk.garbage :: _ =>
        (none, { s with ended := true, errSlot := some StreamErr.malformed })

/-- Modelled from the spec: `err() -> terminal error`, valid after
end-of-stream. -/
def RowReader.err (s : RowReader) : Option StreamErr := s.errSlot

/-- The rows yielded by `n` successive `next()` calls, in order. -/
def RowReader.trace (s : RowReader) : Nat → List (Option (List Nat))
  | 0 => []
  | n + 1 =>
      let (r, s') := s.nextRow
      r :: s'.trace n

/-- The reader state after `n` successive `next()` calls. -/
def RowReader.advance (s : RowReader) : Nat → RowReader
  | 0 => s
  | n + 1 => (s.nextRow).2.advance n

/-! ## Circuit breaker (spec §4.3)

Modelled from the spec: per-target admission gate with states closed, open
and half-open, a consecutive-failure counter, and a timestamp before which
an open breaker rejects.  The claim fixes failure-threshold 3 and a 100 ms
cooldown; time is an integer count of milliseconds. -/

inductive CBState where
  | closed
  | opened
  | halfOpen
deriving DecidableEq, Repr

/-- Modelled from the spec: `CircuitState` — breaker state, rolling counter
of consecutive failures, and the instant at which an open breaker may next
admit a half-open probe. -/
structure Breaker where
  state : CBState
  failCount : Nat
  probeAt : Int
deriving DecidableEq, Repr

/-- Number of consecutive failures in the closed state that opens the
breaker (the claim's failure-threshold). -/
def cbFailureThreshold : Nat := 3

/-- Cooldown in milliseconds before an open breaker admits a probe. -/
def cbCooldownMs : Int := 100

/-- A breaker in its initial, closed state. -/
def Breaker.fresh : Breaker := { state := CBState.closed, failCount := 0, probeAt := 0 }

/-- Modelled from the spec: `allow(node, service)` — closed admits every
request; open rejects until the cooldown instant, after which the next
request is admitted as the single half-open probe; while half-open (probe
outstanding) every further request is rejected. -/
def Breaker.allow (b : Breaker) (now : Int) : Bool × Breaker :=
  match b.state with
  | CBState.closed => (true, b)
  | CBState.opened =>
      if b.probeAt ≤ now then
        (true, { b with state := CBState.halfOpen })
      else
        (false, b)
  | CBState.halfOpen => (false, b)

/-- Modelled from the spec: `report(node, service, outcome)` for a failed
exchange — closed counts consecutive failures and opens at the threshold
with the cooldown armed; a half-open probe failure reopens the breaker with
the cooldown reset. -/
def Breaker.reportFailure (b : Breaker) (now : Int) : Breaker :=
  match b.state with
  | CBState.closed =>
      let n := b.failCount + 1
      if cbFailureThreshold ≤ n then
        { state := CBState.opened, failCount := 0, probeAt := now + cbCooldownMs }
      else
        { b with failCount := n }
  | CBState.opened => b
  | CBState.halfOpen =>
      { state := CBState.opened, failCount := 0, probeAt := now + cbCooldownMs }

/-- Modelled from the spec: `report` for a successful exchange — a
half-open probe success closes the breaker; success in the closed state
resets the consecutive-failure counter. -/
def Breaker.reportSuccess (b : Breaker) : Breaker :=
  match b.state with
  | CBState.closed => { b with failCount := 0 }
  | CBState.opened => b
  | CBState.halfOpen => { state := CBState.closed, failCount := 0, probeAt := b.probeAt }

/-! ## agent_config.go: AgentConfig, redacted, FromConnStr

Translated from the source.  `gocbconnstr.Parse`/`Resolve` (connection
string parsing and DNS resolution) are an external collaborator (spec §1);
the embedding of `FromConnStr` therefore takes the resolved spec as input.
Calls into the standard library with effects or machine-level semantics —
`ioutil.ReadFile`, `x509.CertPool.AppendCertsFromPEM`, and
`strconv.ParseFloat`'s acceptance of a float64 token — are supplied by a
`ConnStrEnv`.  `strconv.ParseInt(_, 10, 64)` and `strconv.ParseBool` are
pure and embedded directly. -/

/-- `DcpAgentPriority` and its constants `DcpAgentPriorityLow`/`Med`/`High`. -/
inductive DcpAgentPriority where
  | low
  | med
  | high
deriving DecidableEq, Repr

/-- `x509.CertPool`: the certificates appended so far, each the PEM block
it was decoded from. -/
abbrev CertPool := List String

/-- `AgentConfig` (agent_config.go).  Go types are modelled as: `string` ↦
`String`, `[]string` ↦ `List String`, `bool` ↦ `Bool`, `int`/`time.Duration`
↦ `Int` (durations in nanoseconds), `*x509.CertPool` ↦ `Option CertPool`
(`none` = nil), `float64` ↦ the accepted `strconv.ParseFloat` token (no
claim concerns float arithmetic), and interface-typed fields
(`AuthProvider`, `RequestTracer`, `RetryStrategy`, plus the out-of-fragment
`CircuitBreakerConfig`) ↦ `Unit`, since `FromConnStr` and `redacted` never
touch them beyond the whole-struct copy. -/
structure AgentConfig where
  UserAgent : String := ""
  MemdAddrs : List String := []
  HTTPAddrs : List String := []
  UseTLS : Bool := false
  BucketName : String := ""
  NetworkType : String := ""
  Auth : Unit := ()
  TLSRootCAs : Option CertPool := none
  TLSSkipVerify : Bool := false
  UseMutationTokens : Bool := false
  UseCompression : Bool := false
  UseDurations : Bool := false
  DisableDecompression : Bool := false
  UseCollections : Bool := false
  CompressionMinSize : Int := 0
  CompressionMinRatio : String := ""
  HTTPRedialPeriod : Int := 0
  HTTPRetryDelay : Int := 0
  CccpMaxWait : Int := 0
  CccpPollPeriod : Int := 0
  ConnectTimeout : Int := 0
  KVConnectTimeout : Int := 0
  KvPoolSize : Int := 0
  MaxQueueSize : Int := 0
  HTTPMaxIdleConns : Int := 0
  HTTPMaxIdleConnsPerHost : Int := 0
  HTTPIdleConnectionTimeout : Int := 0
  Tracer : Unit := ()
  NoRootTraceSpans : Bool := false
  DefaultRetryStrategy : Unit := ()
  CircuitBreakerConfig : Unit := ()
  UseZombieLogger : Bool := false
  ZombieLoggerInterval : Int := 0
  ZombieLoggerSampleSize : Int := 0
  DcpAgentPriority : DcpAgentPriority := DcpAgentPriority.low
  UseDCPExpiry : Bool := false
  UseDCPStreamID : Bool := false
deriving DecidableEq, Repr

/-- A resolved address, as `gocbconnstr.Resolve` reports it. -/
structure SpecHost where
  Host : String
  Port : Nat
deriving DecidableEq, Repr

/-- The resolved connection-string specification consumed by `FromConnStr`
(the output of the external `gocbconnstr.Resolve`).  `Options` models Go's
`map[string][]string`: each option name mapped to its values in occurrence
order, with `[]` for an absent name. -/
structure ResolvedSpec where
  MemdHosts : List SpecHost
  HttpHosts : List SpecHost
  UseSsl : Bool
  Bucket : String
  Options : String → List String

/-- External calls performed by `FromConnStr`: `ioutil.ReadFile` (`none`
models a read error), the PEM decoding inside
`x509.CertPool.AppendCertsFromPEM` (the certificates found in the contents;
`[]` makes Go report `ok == false`), and `strconv.ParseFloat`'s acceptance
of a token. -/
structure ConnStrEnv where
  readFile : String → Option String
  pemCerts : String → List String
  parseFloatOk : String → Bool

/-- `strconv.ParseInt(s, 10, 64)`: optional sign, at least one decimal
digit, value within the signed 64-bit range; `none` models a non-nil
error (including range errors, which `FromConnStr` treats as errors). -/
def goParseInt64 (s : String) : Option Int :=
  let signed :=
    match s.toList with
    | '+' :: rest => (false, rest)
    | '-' :: rest => (true, rest)
    | rest => (false, rest)
  let digits := signed.2
  if digits.isEmpty then none
  else if digits.all (fun c => c.isDigit) then
    let mag : Int := Int.ofNat (digits.foldl (fun acc c => acc * 10 + (c.toNat - '0'.toNat)) 0)
    let v : Int := if signed.1 then -mag else mag
    if -(2 ^ 63) ≤ v ∧ v ≤ 2 ^ 63 - 1 then some v else none
  else none

/-- `strconv.ParseBool`. -/
def goParseBool (s : String) : Option Bool :=
  if s = "1" ∨ s = "t" ∨ s = "T" ∨ s = "TRUE" ∨ s = "true" ∨ s = "True" then
    some true
  else if s = "0" ∨ s = "f" ∨ s = "F" ∨ s = "FALSE" ∨ s = "false" ∨ s = "False" then
    some false
  else none

/-- `time.Millisecond` as a nanosecond count (`time.Duration` is int64
nanoseconds). -/
def timeMillisecond : Int := 1000000

/-- The `errInvalidCertificate` value returned when a `ca_cert_path` file
holds no parsable PEM certificate. -/
def errInvalidCertificate : String := "invalid certificate"

/-- The `fetchOption` closure of `FromConnStr` (agent_config.go:127): the
last value of the named option, absent exactly when the resolved value list
is empty (`getLast?` returns `none` precisely on `[]`, matching the
`len(optValue) == 0` guard and the `optValue[len(optValue)-1]` read). -/
def fetchOption (spec : ResolvedSpec) (name : String) : Option String :=
  (spec.Options name).getLast?

/-- `fmt.Sprintf("%s:%d", specHost.Host, specHost.Port)`. -/
def formatHost (h : SpecHost) : String :=
  h.Host ++ ":" ++ toString h.Port

/-- agent_config.go:135–166: the resolved hosts formatted `host:port`, then
the `bootstrap_on` switch — `http` clears the memd list (failing when no
HTTP host survives), `cccp` clears the HTTP list (failing when no memd host
survives), `both` and absent keep both, anything else is an error.  Returns
`(memdHosts, httpHosts)`. -/
def bootstrapHosts (spec : ResolvedSpec) : Except String (List String × List String) :=
  match (fetchOption spec "bootstrap_on").getD "" with
  | "http" =>
      if (spec.HttpHosts.map formatHost).length = 0 then
        Except.error "bootstrap_on=http but no HTTP hosts in connection string"
      else
        Except.ok ([], spec.HttpHosts.map formatHost)
  | "cccp" =>
      if (spec.MemdHosts.map formatHost).length = 0 then
        Except.error "bootstrap_on=cccp but no CCCP/Memcached hosts in connection string"
      else
        Except.ok (spec.MemdHosts.map formatHost, [])
  | "both" => Except.ok (spec.MemdHosts.map formatHost, spec.HttpHosts.map formatHost)
  | "" => Except.ok (spec.MemdHosts.map formatHost, spec.HttpHosts.map formatHost)
  | _ => Except.error "bootstrap_on={http,cccp,both}"

/-- agent_config.go:176–186: the loop over the `ca_cert_path` values,
reading each file and appending its PEM certificates to the pool; a read
error surfaces as that error, a file from which no certificate parses as
`errInvalidCertificate`. -/
def loadCACerts (env : ConnStrEnv) : List String → CertPool → Except String CertPool
  | [], roots => Except.ok roots
  | path :: rest, roots =>
      match env.readFile path with
      | none => Except.error ("open " ++ path ++ ": no such file or directory")
      | some cacert =>
          if (env.pemCerts cacert).length = 0 then
            Except.error errInvalidCertificate
          else
            loadCACerts env rest (roots ++ env.pemCerts cacert)

/-- agent_config.go:168–194: the `spec.UseSsl` block — with at least one
`ca_cert_path` value the referenced PEM files populate `TLSRootCAs` (a
fresh `x509.NewCertPool()`), otherwise `TLSSkipVerify` is set; in either
surviving branch `UseTLS` is set afterwards. -/
def applyTLS (env : ConnStrEnv) (spec : ResolvedSpec) (config : AgentConfig) :
    Except String AgentConfig :=
  if spec.UseSsl then
    if (spec.Options "ca_cert_path").length > 0 then
      match loadCACerts env (spec.Options "ca_cert_path") [] with
      | Except.error e => Except.error e
      | Except.ok roots =>
          Except.ok { config with TLSRootCAs := some roots, UseTLS := true }
    else
      Except.ok { config with TLSSkipVerify := true, UseTLS := true }
  else
    Except.ok config

/-- agent_config.go:196–198: a nonempty resolved bucket name. -/
def applyBucket (spec : ResolvedSpec) (config : AgentConfig) : AgentConfig :=
  if spec.Bucket ≠ "" then { config with BucketName := spec.Bucket } else config

/-- agent_config.go:200–206: the `network` option, with `default` mapped to
the empty network type. -/
def applyNetwork (spec : ResolvedSpec) (config : AgentConfig) : AgentConfig :=
  match fetchOption spec "network" with
  | none => config
  | some valStr =>
      { config with NetworkType := if valStr = "default" then "" else valStr }

/-- The shape shared by the millisecond-duration options of `FromConnStr`:
fetch, `strconv.ParseInt`, multiply by `time.Millisecond`, assign. -/
def intMsOption (spec : ResolvedSpec) (name errMsg : String)
    (setter : AgentConfig → Int → AgentConfig) (config : AgentConfig) :
    Except String AgentConfig :=
  match fetchOption spec name with
  | none => Except.ok config
  | some valStr =>
      match goParseInt64 valStr with
      | none => Except.error errMsg
      | some val => Except.ok (setter config (val * timeMillisecond))

/-- The shape shared by the plain integer options of `FromConnStr`:
fetch, `strconv.ParseInt`, assign `int(val)`. -/
def intFieldOption (spec : ResolvedSpec) (name errMsg : String)
    (setter : AgentConfig → Int → AgentConfig) (config : AgentConfig) :
    Except String AgentConfig :=
  match fetchOption spec name with
  | none => Except.ok config
  | some valStr =>
      match goParseInt64 valStr with
      | none => Except.error errMsg
      | some val => Except.ok (setter config val)

/-- The shape shared by the boolean options of `FromConnStr`: fetch,
`strconv.ParseBool`, assign. -/
def boolFieldOption (spec : ResolvedSpec) (name errMsg : String)
    (setter : AgentConfig → Bool → AgentConfig) (config : AgentConfig) :
    Except String AgentConfig :=
  match fetchOption spec name with
  | none => Except.ok config
  | some valStr =>
      match goParseBool valStr with
      | none => Except.error errMsg
      | some val => Except.ok (setter config val)

/-- agent_config.go:256–262: the `compression_min_ratio` option —
`strconv.ParseFloat` acceptance comes from the environment, the accepted
token is stored (float64 values are modelled opaquely). -/
def floatFieldOption (env : ConnStrEnv) (spec : ResolvedSpec) (name errMsg : String)
    (setter : AgentConfig → String → AgentConfig) (config : AgentConfig) :
    Except String AgentConfig :=
  match fetchOption spec name with
  | none => Except.ok config
  | some valStr =>
      if env.parseFloatOk valStr then Except.ok (setter config valStr)
      else Except.error errMsg

/-- agent_config.go:321–336: the experimental `dcp_priority` option. -/
def dcpPriorityOption (spec : ResolvedSpec) (config : AgentConfig) :
    Except String AgentConfig :=
  match fetchOption spec "dcp_priority" with
  | none => Except.ok config
  | some valStr =>
      match valStr with
      | "" => Except.ok { config with DcpAgentPriority := DcpAgentPriority.low }
      | "low" => Except.ok { config with DcpAgentPriority := DcpAgentPriority.low }
      | "medium" => Except.ok { config with DcpAgentPriority := DcpAgentPriority.med }
      | "high" => Except.ok { config with DcpAgentPriority := DcpAgentPriority.high }
      | _ => Except.error "dcp_priority must be one of low, medium or high"

/-- agent_config.go:208–381: the option blocks after `network`, in source
order, each with the source's option name, error message and target
field. -/
def applyOptions (env : ConnStrEnv) (spec : ResolvedSpec) (config : AgentConfig) :
    Except String AgentConfig := do
  let config ← intMsOption spec "kv_connect_timeout"
    "kv_connect_timeout option must be a number"
    (fun c v => { c with KVConnectTimeout := v }) config
  let config ← intMsOption spec "config_poll_timeout"
    "config poll timeout option must be a number"
    (fun c v => { c with CccpMaxWait := v }) config
  let config ← intMsOption spec "config_poll_interval"
    "config pool interval option must be a number"
    (fun c v => { c with CccpPollPeriod := v }) config
  let config ← boolFieldOption spec "enable_mutation_tokens"
    "enable_mutation_tokens option must be a boolean"
    (fun c v => { c with UseMutationTokens := v }) config
  let config ← boolFieldOption spec "compression"
    "compression option must be a boolean"
    (fun c v => { c with UseCompression := v }) config
  let config ← intFieldOption spec "compression_min_size"
    "compression_min_size option must be an int"
    (fun c v => { c with CompressionMinSize := v }) config
  let config ← floatFieldOption env spec "compression_min_ratio"
    "compression_min_size option must be an int"
    (fun c v => { c with CompressionMinRatio := v }) config
  let config ← boolFieldOption spec "enable_server_durations"
    "server_duration option must be a boolean"
    (fun c v => { c with UseDurations := v }) config
  let config ← intFieldOption spec "max_idle_http_connections"
    "http max idle connections option must be a number"
    (fun c v => { c with HTTPMaxIdleConns := v }) config
  let config ← intFieldOption spec "max_perhost_idle_http_connections"
    "max_perhost_idle_http_connections option must be a number"
    (fun c v => { c with HTTPMaxIdleConnsPerHost := v }) config
  let config ← intMsOption spec "idle_http_connection_timeout"
    "idle_http_connection_timeout option must be a number"
    (fun c v => { c with HTTPIdleConnectionTimeout := v }) config
  let config ← boolFieldOption spec "orphaned_response_logging"
    "orphaned_response_logging option must be a boolean"
    (fun c v => { c with UseZombieLogger := v }) config
  let config ← intMsOption spec "orphaned_response_logging_interval"
    "orphaned_response_logging_interval option must be a number"
    (fun c v => { c with ZombieLoggerInterval := v }) config
  let config ← intFieldOption spec "orphaned_response_logging_sample_size"
    "orphaned_response_logging_sample_size option must be a number"
    (fun c v => { c with ZombieLoggerSampleSize := v }) config
  let config ← dcpPriorityOption spec config
  let config ← boolFieldOption spec "enable_dcp_expiry"
    "enable_dcp_expiry option must be a boolean"
    (fun c v => { c with UseDCPExpiry := v }) config
  let config ← intMsOption spec "http_redial_period"
    "http redial period option must be a number"
    (fun c v => { c with HTTPRedialPeriod := v }) config
  let config ← intMsOption spec "http_retry_delay"
    "http retry delay option must be a number"
    (fun c v => { c with HTTPRetryDelay := v }) config
  let config ← intFieldOption spec "kv_pool_size"
    "kv pool size option must be a number"
    (fun c v => { c with KvPoolSize := v }) config
  let config ← intFieldOption spec "max_queue_size"
    "max queue size option must be a number"
    (fun c v => { c with MaxQueueSize := v }) config
  Except.ok config

/-- `AgentConfig.FromConnStr` (agent_config.go:116), after the external
`gocbconnstr.Parse`/`Resolve` calls have produced `spec`.  In-place
mutation of the receiver is modelled by returning the updated config; a
non-nil `error` return by `Except.error` (Go callers discard the partially
mutated receiver on error). -/
def FromConnStr (env : ConnStrEnv) (spec : ResolvedSpec) (config : AgentConfig) :
    Except String AgentConfig := do
  let hosts ← bootstrapHosts spec
  let config := { config with MemdAddrs := hosts.1, HTTPAddrs := hosts.2 }
  let config ← applyTLS env spec config
  let config := applyBucket spec config
  let config := applyNetwork spec config
  applyOptions env spec config

/-! ## agent_config.go: `redacted`, with Go slice aliasing made explicit

`(config *AgentConfig) redacted()` copies the receiver struct and, under
full log redaction, rewrites the address slices element-wise.  The claim at
stake is about aliasing — the struct copy shares the slices' backing
arrays, so the `append([]string(nil), ...)` copies are what protect the
receiver — therefore slices are modelled as references into a heap of
string arrays.  `redactSystemData`, `redactMetaData` and
`isLogRedactionLevelFull` live outside the visible fragment and are passed
in as parameters. -/

/-- The arena of slice backing arrays; a slice value is an index into it. -/
abbrev Heap := List (List String)

/-- Dereferences a slice. -/
def sliceRead (h : Heap) (r : Nat) : List String := h.getD r []

/-- Allocates a fresh backing array holding `xs` (what
`append([]string(nil), xs...)` does) and returns the new slice. -/
def allocSlice (h : Heap) (xs : List String) : Heap × Nat := (h ++ [xs], h.length)

/-- Writes a slice's backing array in place (what the element-wise
`newConfig.HTTPAddrs[i] = ...` loop does to the whole array). -/
def sliceWrite (h : Heap) (r : Nat) (xs : List String) : Heap := h.set r xs

/-- `AgentConfig` as `redacted` sees it: the two address slices are heap
references; of the remaining fields, copied verbatim by the struct
assignment and never written, `BucketName` (the one `redacted` rewrites by
value) and `UserAgent` (a representative untouched one) are kept. -/
structure AgentConfigRef where
  UserAgent : String
  MemdAddrs : Nat
  HTTPAddrs : Nat
  BucketName : String
deriving DecidableEq, Repr

/-- `(config *AgentConfig) redacted()` (agent_config.go:68–89) over the
slice heap: `newConfig = *config` copies the struct (sharing backing
arrays); under full redaction each address slice is first freshly copied
(`append([]string(nil), ...)`), then rewritten element-wise through the new
reference, and a nonempty bucket name is redacted; the pair (heap after,
returned copy) is produced. -/
def redacted (full : Bool) (rs rm : String → String) (h : Heap)
    (config : AgentConfigRef) : Heap × AgentConfigRef :=
  let newConfig := config
  if full then
    let hAlloc := allocSlice h (sliceRead h newConfig.HTTPAddrs)
    let newConfig := { newConfig with HTTPAddrs := hAlloc.2 }
    let h1 := sliceWrite hAlloc.1 hAlloc.2 ((sliceRead hAlloc.1 hAlloc.2).map rs)
    let mAlloc := allocSlice h1 (sliceRead h1 newConfig.MemdAddrs)
    let newConfig := { newConfig with MemdAddrs := mAlloc.2 }
    let h2 := sliceWrite mAlloc.1 mAlloc.2 ((sliceRead mAlloc.1 mAlloc.2).map rs)
    let newConfig :=
      { newConfig with BucketName :=
          if newConfig.BucketName ≠ "" then rm newConfig.BucketName
          else newConfig.BucketName }
    (h2, newConfig)
  else
    (h, newConfig)

/-- The net effect of `redacted` on one address slice (agent_config.go:74–81):
allocate a fresh copy of the slice's contents, rewrite it element-wise
through the new reference, and return (heap after, the new slice). -/
def copyRedactSlice (f : String → String) (h : Heap) (r : Nat) : Heap × Nat :=
  (sliceWrite (allocSlice h (sliceRead h r)).1 (allocSlice h (sliceRead h r)).2
      ((sliceRead (allocSlice h (sliceRead h r)).1 (allocSlice h (sliceRead h r)).2).map f),
   (allocSlice h (sliceRead h r)).2)

/-! ## Frame predicates and concrete sample inputs -/

/-- The two address fields, set only by the host/bootstrap phase of
`FromConnStr`. -/
abbrev KeepsAddrs (c c' : AgentConfig) : Prop :=
  c'.MemdAddrs = c.MemdAddrs ∧ c'.HTTPAddrs = c.HTTPAddrs

/-- The three TLS fields, set only by the `spec.UseSsl` block. -/
abbrev KeepsTLS (c c' : AgentConfig) : Prop :=
  c'.UseTLS = c.UseTLS ∧ c'.TLSSkipVerify = c.TLSSkipVerify ∧
  c'.TLSRootCAs = c.TLSRootCAs

/-- The network-type field, set only by the `network` option block. -/
abbrev KeepsNet (c c' : AgentConfig) : Prop :=
  c'.NetworkType = c.NetworkType

/-- The fields the option blocks after `network` never write. -/
abbrev KeepsCore (c c' : AgentConfig) : Prop :=
  KeepsAddrs c c' ∧ KeepsTLS c c' ∧ KeepsNet c c'

/-- The zero-value `AgentConfig{}` a Go caller starts from. -/
def defaultAgentConfig : AgentConfig := {}

/-- A concrete environment: one readable PEM file `good.pem` holding one
certificate; every other path fails to read. -/
def sampleEnv : ConnStrEnv :=
  { readFile := fun path => if path = "good.pem" then some "GOODPEM" else none,
    pemCerts := fun contents => if contents = "GOODPEM" then ["CERTA"] else [],
    parseFloatOk := fun _ => true }

def sampleMemdHost : SpecHost := { Host := "db1.example.com", Port := 11210 }

def sampleHttpHost : SpecHost := { Host := "db1.example.com", Port := 8091 }

/-- A concrete resolved SSL connection spec carrying the given
`ca_cert_path` values and no other option. -/
def sampleSslSpec (paths : List String) : ResolvedSpec :=
  { MemdHosts := [sampleMemdHost], HttpHosts := [sampleHttpHost],
    UseSsl := true, Bucket := "default",
    Options := fun name => if name = "ca_cert_path" then paths else [] }

/-! # Theorems -/

/-! ## Settlement lemmas -/

theorem settle_settled (op : PendingOp) (o o' : Outcome)
    (h : op.settled = some o') : settle op o = op := by
  unfold settle
  rw [h]

theorem runEvents_settled (op : PendingOp) (events : List Outcome)
    (o : Outcome) (h : op.settled = some o) : runEvents op events = op := by
  induction events with
  | nil => rfl
  | cons e rest ih =>
      unfold runEvents
      simp only [List.foldl_cons]
      rw [settle_settled op e o h]
      unfold runEvents at ih
      exact ih

theorem runEvents_fresh (e : Outcome) (rest : List Outcome) :
    runEvents PendingOp.fresh (e :: rest)
      = { settled := some e, callbackFires := 1 } := by
  unfold runEvents
  simp only [List.foldl_cons]
  have hs : settle PendingOp.fresh e = { settled := some e, callbackFires := 1 } := rfl
  rw [hs]
  exact runEvents_settled _ rest e rfl

/-- C1: for every accepted operation and every interleaving of the
concurrently arriving settlement events (cancel, deadline expiry, network
completion — at least one of which arrives, the deadline timer guaranteeing
so), the completion callback fires exactly once, with the single winning
outcome, which is one of: a result, `RequestCanceled`, `Timeout`, or a
terminal non-retryable failure. -/
theorem claim1_exactly_once_settlement (events : List Outcome)
    (hne : events ≠ []) :
    (runEvents PendingOp.fresh events).callbackFires = 1 ∧
    ∃ o, (runEvents PendingOp.fresh events).settled = some o ∧
      (events.head hne = o) ∧
      ((∃ p, o = Outcome.result p) ∨ o = Outcome.requestCanceled ∨
        o = Outcome.timeout ∨ ∃ c, o = Outcome.terminalFailure c) := by
  match events, hne with
  | e :: rest, _ =>
      rw [runEvents_fresh e rest]
      refine ⟨rfl, e, rfl, rfl, ?_⟩
      cases e with
      | result p => exact Or.inl ⟨p, rfl⟩
      | requestCanceled => exact Or.inr (Or.inl rfl)
      | timeout => exact Or.inr (Or.inr (Or.inl rfl))
      | terminalFailure c => exact Or.inr (Or.inr (Or.inr ⟨c, rfl⟩))

/-- Witness for C1 at a concrete interleaving. -/
theorem claim1_exactly_once_settlement_witness :
    (runEvents PendingOp.fresh
        [Outcome.requestCanceled, Outcome.result [7], Outcome.timeout]).callbackFires = 1 ∧
    ∃ o, (runEvents PendingOp.fresh
        [Outcome.requestCanceled, Outcome.result [7], Outcome.timeout]).settled = some o ∧
      ([Outcome.requestCanceled, Outcome.result [7], Outcome.timeout].head
          (by decide) = o) ∧
      ((∃ p, o = Outcome.result p) ∨ o = Outcome.requestCanceled ∨
        o = Outcome.timeout ∨ ∃ c, o = Outcome.terminalFailure c) :=
  claim1_exactly_once_settlement
    [Outcome.requestCanceled, Outcome.result [7], Outcome.timeout] (by decide)

/-- C2: when a `cancel()` call wins the settlement race (arrives first),
the callback fires with `RequestCanceled` and no result is delivered; and
once an operation has settled with any outcome, any further number of
`cancel()` calls is a no-op. -/
theorem claim2_cancel_wins_and_idempotent (rest : List Outcome)
    (op : PendingOp) (o : Outcome) (hsettled : op.settled = some o) (n : Nat) :
    (runEvents PendingOp.fresh (Outcome.requestCanceled :: rest)).settled
        = some Outcome.requestCanceled ∧
    (runEvents PendingOp.fresh (Outcome.requestCanceled :: rest)).callbackFires = 1 ∧
    (runEvents PendingOp.fresh
        (Outcome.requestCanceled :: rest)).deliveredResult = false ∧
    runEvents op (List.replicate n Outcome.requestCanceled) = op := by
  rw [runEvents_fresh Outcome.requestCanceled rest]
  exact ⟨rfl, rfl, rfl, runEvents_settled op _ o hsettled⟩

/-- Witness for C2 at a concrete race and a concrete settled operation. -/
theorem claim2_cancel_wins_and_idempotent_witness :
    (runEvents PendingOp.fresh
        (Outcome.requestCanceled :: [Outcome.result [1, 2]])).settled
        = some Outcome.requestCanceled ∧
    (runEvents PendingOp.fresh
        (Outcome.requestCanceled :: [Outcome.result [1, 2]])).callbackFires = 1 ∧
    (runEvents PendingOp.fresh
        (Outcome.requestCanceled :: [Outcome.result [1, 2]])).deliveredResult = false ∧
    runEvents { settled := some (Outcome.result [3]), callbackFires := 1 }
        (List.replicate 5 Outcome.requestCanceled)
      = { settled := some (Outcome.result [3]), callbackFires := 1 } :=
  claim2_cancel_wins_and_idempotent [Outcome.result [1, 2]]
    { settled := some (Outcome.result [3]), callbackFires := 1 }
    (Outcome.result [3]) rfl 5

/-- C3: an operation whose absolute deadline is already in the past at
submission settles with `Timeout` and performs no network I/O; an operation
whose deadline elapses before the network completion would arrive settles
with `Timeout` and delivers no result. -/
theorem claim3_timeout_precedence (now deadline netTime : Int)
    (payload : List Nat) :
    (deadline < now →
      dispatchWithDeadline now deadline netTime payload = (Outcome.timeout, false)) ∧
    (deadline < netTime →
      (dispatchWithDeadline now deadline netTime payload).1 = Outcome.timeout) := by
  constructor
  · intro hpast
    unfold dispatchWithDeadline
    rw [if_pos (le_of_lt hpast)]
  · intro hlate
    unfold dispatchWithDeadline
    by_cases hnow : deadline ≤ now
    · rw [if_pos hnow]
    · rw [if_neg hnow, if_neg (not_le.mpr hlate)]

/-- Witness for C3 at concrete instants. -/
theorem claim3_timeout_precedence_witness :
    ((5 : Int) < 10 →
      dispatchWithDeadline 10 5 20 [9] = (Outcome.timeout, false)) ∧
    ((5 : Int) < 20 →
      (dispatchWithDeadline 10 5 20 [9]).1 = Outcome.timeout) :=
  claim3_timeout_precedence 10 5 20 [9]

/-! ## Row reader lemmas -/

theorem nextRow_ended (s : RowReader) (h : s.ended = true) :
    s.nextRow = (none, s) := by
  unfold RowReader.nextRow
  rw [h]
  rfl

theorem trace_succ (s : RowReader) (n : Nat) :
    s.trace (n + 1) = s.nextRow.1 :: s.nextRow.2.trace n := by
  cases h : s.nextRow with
  | mk a b => simp only [RowReader.trace, h]

theorem advance_succ (s : RowReader) (n : Nat) :
    s.advance (n + 1) = s.nextRow.2.advance n := by
  cases h : s.nextRow with
  | mk a b => simp only [RowReader.advance, h]

theorem trace_ended (s : RowReader) (h : s.ended = true) (n : Nat) :
    s.trace n = List.replicate n none := by
  induction n with
  | zero => rfl
  | succ m ih =>
      rw [trace_succ, nextRow_ended s h]
      simpa [List.replicate] using ih

theorem advance_ended (s : RowReader) (h : s.ended = true) (n : Nat) :
    s.advance n = s := by
  induction n with
  | zero => rfl
  | succ m ih =>
      rw [advance_succ, nextRow_ended s h]
      exact ih

theorem nextRow_row (r : List Nat) (rest : List Chunk) (es : Option StreamErr) :
    RowReader.nextRow { pending := Chunk.row r :: rest, errSlot := es, ended := false }
      = (some r, { pending := rest, errSlot := es, ended := false }) := rfl

theorem trace_rows_prefix (rows : List (List Nat)) (tail : List Chunk)
    (es : Option StreamErr) (n : Nat) :
    RowReader.trace { pending := rows.map Chunk.row ++ tail, errSlot := es, ended := false }
        (rows.length + n)
      = rows.map some
          ++ RowReader.trace { pending := tail, errSlot := es, ended := false } n := by
  induction rows with
  | nil => simp
  | cons r rest ih =>
      have harr : (r :: rest).length + n = (rest.length + n) + 1 := by
        simp only [List.length_cons]
        omega
      rw [harr]
      simp only [List.map_cons, List.cons_append]
      rw [trace_succ, nextRow_row]
      exact congrArg (some r :: ·) ih

theorem advance_rows_prefix (rows : List (List Nat)) (tail : List Chunk)
    (es : Option StreamErr) (n : Nat) :
    RowReader.advance { pending := rows.map Chunk.row ++ tail, errSlot := es, ended := false }
        (rows.length + n)
      = RowReader.advance { pending := tail, errSlot := es, ended := false } n := by
  induction rows with
  | nil => simp
  | cons r rest ih =>
      have harr : (r :: rest).length + n = (rest.length + n) + 1 := by
        simp only [List.length_cons]
        omega
      rw [harr]
      simp only [List.map_cons, List.cons_append]
      rw [advance_succ, nextRow_row]
      exact ih

/-- C4: a well-formed streamed response carrying rows `[r1, r2, r3]` yields
`r1, r2, r3` in wire order through successive `next()` calls, then
end-of-stream, and every one of the `n` further `next()` calls after
end-of-stream again returns end-of-stream. -/
theorem claim4_rows_in_order_then_eos (r1 r2 r3 : List Nat) (n : Nat) :
    (RowReader.open
        [Chunk.row r1, Chunk.row r2, Chunk.row r3, Chunk.endMarker]).trace (3 + (n + 1))
      = [some r1, some r2, some r3] ++ List.replicate (n + 1) none := by
  have h := trace_rows_prefix [r1, r2, r3] [Chunk.endMarker] none (n + 1)
  simp only [List.map_cons, List.map_nil, List.length_cons, List.length_nil] at h
  have hopen : RowReader.open [Chunk.row r1, Chunk.row r2, Chunk.row r3, Chunk.endMarker]
      = { pending := [Chunk.row r1, Chunk.row r2, Chunk.row r3, Chunk.endMarker],
          errSlot := none, ended := false } := rfl
  rw [hopen]
  have harr : (3 : Nat) + (n + 1) = 0 + 1 + 1 + 1 + (n + 1) := by omega
  rw [harr]
  refine h.trans ?_
  have hend : RowReader.trace
      { pending := [Chunk.endMarker], errSlot := none, ended := false } (n + 1)
      = none :: List.replicate n none := by
    unfold RowReader.trace
    simp only [RowReader.nextRow]
    exact congrArg (none :: ·) (trace_ended _ rfl n)
  rw [hend]
  simp [List.replicate]

/-- C5: a streamed response whose body is truncated (ends without a
terminator) or malformed (undecodable bytes) after a prefix `rows` of
complete rows yields exactly those rows in order, then end-of-stream on
every further call — never a partial or garbage row, as the trace equation
shows every yielded row is one of `rows` — and after end-of-stream `err()`
reports the terminal error (`truncated` resp. `malformed`). -/
theorem claim5_truncated_and_malformed (rows : List (List Nat)) (n : Nat) :
    ((RowReader.open (rows.map Chunk.row ++ [Chunk.garbage])).trace
        (rows.length + (n + 1))
      = rows.map some ++ List.replicate (n + 1) none) ∧
    ((RowReader.open (rows.map Chunk.row ++ [Chunk.garbage])).advance
        (rows.length + (n + 1))).err = some StreamErr.malformed ∧
    ((RowReader.open (rows.map Chunk.row)).trace (rows.length + (n + 1))
      = rows.map some ++ List.replicate (n + 1) none) ∧
    ((RowReader.open (rows.map Chunk.row)).advance
        (rows.length + (n + 1))).err = some StreamErr.truncated := by
  have hgarbage : RowReader.trace
      { pending := [Chunk.garbage], errSlot := none, ended := false } (n + 1)
      = none :: List.replicate n none := by
    unfold RowReader.trace
    simp only [RowReader.nextRow]
    exact congrArg (none :: ·) (trace_ended _ rfl n)
  have hgadv : RowReader.advance
      { pending := [Chunk.garbage], errSlot := none, ended := false } (n + 1)
      = { pending := [Chunk.garbage], errSlot := some StreamErr.malformed, ended := true } := by
    unfold RowReader.advance
    simp only [RowReader.nextRow]
    exact advance_ended _ rfl n
  have htrunc : RowReader.trace
      { pending := [], errSlot := none, ended := false } (n + 1)
      = none :: List.replicate n none := by
    unfold RowReader.trace
    simp only [RowReader.nextRow]
    exact congrArg (none :: ·) (trace_ended _ rfl n)
  have htadv : RowReader.advance
      { pending := [], errSlot := none, ended := false } (n + 1)
      = { pending := [], errSlot := some StreamErr.truncated, ended := true } := by
    unfold RowReader.advance
    simp only [RowReader.nextRow]
    exact advance_ended _ rfl n
  refine ⟨?_, ?_, ?_, ?_⟩
  · have h := trace_rows_prefix rows [Chunk.garbage] none (n + 1)
    rw [RowReader.open, h, hgarbage]
    simp [List.replicate]
  · have h := advance_rows_prefix rows [Chunk.garbage] none (n + 1)
    rw [RowReader.open, h, hgadv]
    rfl
  · have h := trace_rows_prefix rows [] none (n + 1)
    rw [RowReader.open, (by simp : rows.map Chunk.row = rows.map Chunk.row ++ []), h, htrunc]
    simp [List.replicate]
  · have h := advance_rows_prefix rows [] none (n + 1)
    rw [RowReader.open, (by simp : rows.map Chunk.row = rows.map Chunk.row ++ []), h, htadv]
    rfl

/-- C6: from a fresh breaker with failure-threshold 3 and a 100 ms
cooldown, two consecutive failures leave it closed and the third opens it;
while open and before the cooldown instant every `allow` is rejected; at or
after the cooldown instant the next request is admitted as the single
half-open probe (further requests while half-open are rejected); a probe
success returns the breaker to closed, and a probe failure returns it to
open with the cooldown reset from the failure instant. -/
theorem claim6_circuit_breaker (t1 t2 t3 now probeTime anyTime failTime : Int)
    (hreject : now < t3 + cbCooldownMs) (hprobe : t3 + cbCooldownMs ≤ probeTime) :
    (((Breaker.fresh.reportFailure t1).reportFailure t2).state = CBState.closed) ∧
    ((((Breaker.fresh.reportFailure t1).reportFailure t2).reportFailure t3)
      = { state := CBState.opened, failCount := 0, probeAt := t3 + cbCooldownMs }) ∧
    ((Breaker.mk CBState.opened 0 (t3 + cbCooldownMs)).allow now
      = (false, Breaker.mk CBState.opened 0 (t3 + cbCooldownMs))) ∧
    ((Breaker.mk CBState.opened 0 (t3 + cbCooldownMs)).allow probeTime
      = (true, Breaker.mk CBState.halfOpen 0 (t3 + cbCooldownMs))) ∧
    (((Breaker.mk CBState.halfOpen 0 (t3 + cbCooldownMs)).allow anyTime).1 = false) ∧
    ((Breaker.mk CBState.halfOpen 0 (t3 + cbCooldownMs)).reportSuccess.state
      = CBState.closed) ∧
    ((Breaker.mk CBState.halfOpen 0 (t3 + cbCooldownMs)).reportFailure failTime
      = { state := CBState.opened, failCount := 0, probeAt := failTime + cbCooldownMs }) := by
  refine ⟨rfl, rfl, ?_, ?_, rfl, rfl, rfl⟩
  · unfold Breaker.allow
    simp only
    rw [if_neg (not_le.mpr hreject)]
  · unfold Breaker.allow
    simp only
    rw [if_pos hprobe]

/-! ## Except plumbing -/

theorem except_bind_ok {ε α β : Type} (x : Except ε α) (f : α → Except ε β) (b : β)
    (h : x >>= f = Except.ok b) : ∃ a, x = Except.ok a ∧ f a = Except.ok b := by
  cases x with
  | error e => exact Except.noConfusion h
  | ok a => exact ⟨a, rfl, h⟩

theorem except_ok_bind {ε α β : Type} (a : α) (f : α → Except ε β) :
    (Except.ok (ε := ε) a >>= f) = f a := rfl

theorem except_error_bind {ε α β : Type} (e : ε) (f : α → Except ε β) :
    (Except.error (α := α) e >>= f) = Except.error (α := β) e := rfl

/-! ## Frame lemmas for the FromConnStr pipeline -/

theorem keepsCore_refl (c : AgentConfig) : KeepsCore c c :=
  ⟨⟨rfl, rfl⟩, ⟨rfl, rfl, rfl⟩, rfl⟩

theorem keepsCore_trans {a b c : AgentConfig}
    (h1 : KeepsCore a b) (h2 : KeepsCore b c) : KeepsCore a c :=
  ⟨⟨h2.1.1.trans h1.1.1, h2.1.2.trans h1.1.2⟩,
   ⟨h2.2.1.1.trans h1.2.1.1, h2.2.1.2.1.trans h1.2.1.2.1, h2.2.1.2.2.trans h1.2.1.2.2⟩,
   h2.2.2.trans h1.2.2⟩

theorem intMsOption_keepsCore {spec : ResolvedSpec} {name errMsg : String}
    {setter : AgentConfig → Int → AgentConfig} {config config' : AgentConfig}
    (h : intMsOption spec name errMsg setter config = Except.ok config')
    (hset : ∀ c v, KeepsCore c (setter c v)) :
    KeepsCore config config' := by
  unfold intMsOption at h
  split at h
  · injection h with h
    subst h
    exact keepsCore_refl config
  · split at h
    · exact Except.noConfusion h
    · injection h with h
      subst h
      exact hset config _

theorem intFieldOption_keepsCore {spec : ResolvedSpec} {name errMsg : String}
    {setter : AgentConfig → Int → AgentConfig} {config config' : AgentConfig}
    (h : intFieldOption spec name errMsg setter config = Except.ok config')
    (hset : ∀ c v, KeepsCore c (setter c v)) :
    KeepsCore config config' := by
  unfold intFieldOption at h
  split at h
  · injection h with h
    subst h
    exact keepsCore_refl config
  · split at h
    · exact Except.noConfusion h
    · injection h with h
      subst h
      exact hset config _

theorem boolFieldOption_keepsCore {spec : ResolvedSpec} {name errMsg : String}
    {setter : AgentConfig → Bool → AgentConfig} {config config' : AgentConfig}
    (h : boolFieldOption spec name errMsg setter config = Except.ok config')
    (hset : ∀ c v, KeepsCore c (setter c v)) :
    KeepsCore config config' := by
  unfold boolFieldOption at h
  split at h
  · injection h with h
    subst h
    exact keepsCore_refl config
  · split at h
    · exact Except.noConfusion h
    · injection h with h
      subst h
      exact hset config _

theorem floatFieldOption_keepsCore {env : ConnStrEnv} {spec : ResolvedSpec}
    {name errMsg : String} {setter : AgentConfig → String → AgentConfig}
    {config config' : AgentConfig}
    (h : floatFieldOption env spec name errMsg setter config = Except.ok config')
    (hset : ∀ c v, KeepsCore c (setter c v)) :
    KeepsCore config config' := by
  unfold floatFieldOption at h
  split at h
  · injection h with h
    subst h
    exact keepsCore_refl config
  · split at h
    · injection h with h
      subst h
      exact hset config _
    · exact Except.noConfusion h

theorem dcpPriorityOption_keepsCore {spec : ResolvedSpec} {config config' : AgentConfig}
    (h : dcpPriorityOption spec config = Except.ok config') :
    KeepsCore config config' := by
  unfold dcpPriorityOption at h
  split at h
  · injection h with h
    subst h
    exact keepsCore_refl config
  · split at h <;>
      first
        | exact Except.noConfusion h
        | (injection h with h
           subst h
           exact ⟨⟨rfl, rfl⟩, ⟨rfl, rfl, rfl⟩, rfl⟩)

theorem applyOptions_keepsCore {env : ConnStrEnv} {spec : ResolvedSpec}
    {config config' : AgentConfig}
    (h : applyOptions env spec config = Except.ok config') :
    KeepsCore config config' := by
  unfold applyOptions at h
  obtain ⟨c1, h1, h⟩ := except_bind_ok _ _ _ h
  obtain ⟨c2, h2, h⟩ := except_bind_ok _ _ _ h
  obtain ⟨c3, h3, h⟩ := except_bind_ok _ _ _ h
  obtain ⟨c4, h4, h⟩ := except_bind_ok _ _ _ h
  obtain ⟨c5, h5, h⟩ := except_bind_ok _ _ _ h
  obtain ⟨c6, h6, h⟩ := except_bind_ok _ _ _ h
  obtain ⟨c7, h7, h⟩ := except_bind_ok _ _ _ h
  obtain ⟨c8, h8, h⟩ := except_bind_ok _ _ _ h
  obtain ⟨c9, h9, h⟩ := except_bind_ok _ _ _ h
  obtain ⟨c10, h10, h⟩ := except_bind_ok _ _ _ h
  obtain ⟨c11, h11, h⟩ := except_bind_ok _ _ _ h
  obtain ⟨c12, h12, h⟩ := except_bind_ok _ _ _ h
  obtain ⟨c13, h13, h⟩ := except_bind_ok _ _ _ h
  obtain ⟨c14, h14, h⟩ := except_bind_ok _ _ _ h
  obtain ⟨c15, h15, h⟩ := except_bind_ok _ _ _ h
  obtain ⟨c16, h16, h⟩ := except_bind_ok _ _ _ h
  obtain ⟨c17, h17, h⟩ := except_bind_ok _ _ _ h
  obtain ⟨c18, h18, h⟩ := except_bind_ok _ _ _ h
  obtain ⟨c19, h19, h⟩ := except_bind_ok _ _ _ h
  obtain ⟨c20, h20, h⟩ := except_bind_ok _ _ _ h
  injection h with h
  subst h
  have a1 : KeepsCore config c1 :=
    intMsOption_keepsCore h1 (fun c v => ⟨⟨rfl, rfl⟩, ⟨rfl, rfl, rfl⟩, rfl⟩)
  have a2 : KeepsCore config c2 := keepsCore_trans a1
    (intMsOption_keepsCore h2 (fun c v => ⟨⟨rfl, rfl⟩, ⟨rfl, rfl, rfl⟩, rfl⟩))
  have a3 : KeepsCore config c3 := keepsCore_trans a2
    (intMsOption_keepsCore h3 (fun c v => ⟨⟨rfl, rfl⟩, ⟨rfl, rfl, rfl⟩, rfl⟩))
  have a4 : KeepsCore config c4 := keepsCore_trans a3
    (boolFieldOption_keepsCore h4 (fun c v => ⟨⟨rfl, rfl⟩, ⟨rfl, rfl, rfl⟩, rfl⟩))
  have a5 : KeepsCore config c5 := keepsCore_trans a4
    (boolFieldOption_keepsCore h5 (fun c v => ⟨⟨rfl, rfl⟩, ⟨rfl, rfl, rfl⟩, rfl⟩))
  have a6 : KeepsCore config c6 := keepsCore_trans a5
    (intFieldOption_keepsCore h6 (fun c v => ⟨⟨rfl, rfl⟩, ⟨rfl, rfl, rfl⟩, rfl⟩))
  have a7 : KeepsCore config c7 := keepsCore_trans a6
    (floatFieldOption_keepsCore h7 (fun c v => ⟨⟨rfl, rfl⟩, ⟨rfl, rfl, rfl⟩, rfl⟩))
  have a8 : KeepsCore config c8 := keepsCore_trans a7
    (boolFieldOption_keepsCore h8 (fun c v => ⟨⟨rfl, rfl⟩, ⟨rfl, rfl, rfl⟩, rfl⟩))
  have a9 : KeepsCore config c9 := keepsCore_trans a8
    (intFieldOption_keepsCore h9 (fun c v => ⟨⟨rfl, rfl⟩, ⟨rfl, rfl, rfl⟩, rfl⟩))
  have a10 : KeepsCore config c10 := keepsCore_trans a9
    (intFieldOption_keepsCore h10 (fun c v => ⟨⟨rfl, rfl⟩, ⟨rfl, rfl, rfl⟩, rfl⟩))
  have a11 : KeepsCore config c11 := keepsCore_trans a10
    (intMsOption_keepsCore h11 (fun c v => ⟨⟨rfl, rfl⟩, ⟨rfl, rfl, rfl⟩, rfl⟩))
  have a12 : KeepsCore config c12 := keepsCore_trans a11
    (boolFieldOption_keepsCore h12 (fun c v => ⟨⟨rfl, rfl⟩, ⟨rfl, rfl, rfl⟩, rfl⟩))
  have a13 : KeepsCore config c13 := keepsCore_trans a12
    (intMsOption_keepsCore h13 (fun c v => ⟨⟨rfl, rfl⟩, ⟨rfl, rfl, rfl⟩, rfl⟩))
  have a14 : KeepsCore config c14 := keepsCore_trans a13
    (intFieldOption_keepsCore h14 (fun c v => ⟨⟨rfl, rfl⟩, ⟨rfl, rfl, rfl⟩, rfl⟩))
  have a15 : KeepsCore config c15 := keepsCore_trans a14 (dcpPriorityOption_keepsCore h15)
  have a16 : KeepsCore config c16 := keepsCore_trans a15
    (boolFieldOption_keepsCore h16 (fun c v => ⟨⟨rfl, rfl⟩, ⟨rfl, rfl, rfl⟩, rfl⟩))
  have a17 : KeepsCore config c17 := keepsCore_trans a16
    (intMsOption_keepsCore h17 (fun c v => ⟨⟨rfl, rfl⟩, ⟨rfl, rfl, rfl⟩, rfl⟩))
  have a18 : KeepsCore config c18 := keepsCore_trans a17
    (intMsOption_keepsCore h18 (fun c v => ⟨⟨rfl, rfl⟩, ⟨rfl, rfl, rfl⟩, rfl⟩))
  have a19 : KeepsCore config c19 := keepsCore_trans a18
    (intFieldOption_keepsCore h19 (fun c v => ⟨⟨rfl, rfl⟩, ⟨rfl, rfl, rfl⟩, rfl⟩))
  exact keepsCore_trans a19
    (intFieldOption_keepsCore h20 (fun c v => ⟨⟨rfl, rfl⟩, ⟨rfl, rfl, rfl⟩, rfl⟩))

theorem applyTLS_frame {env : ConnStrEnv} {spec : ResolvedSpec}
    {config config' : AgentConfig}
    (h : applyTLS env spec config = Except.ok config') :
    KeepsAddrs config config' ∧ KeepsNet config config' ∧
    config'.BucketName = config.BucketName := by
  unfold applyTLS at h
  split at h
  · split at h
    · split at h
      · exact Except.noConfusion h
      · injection h with h
        subst h
        exact ⟨⟨rfl, rfl⟩, rfl, rfl⟩
    · injection h with h
      subst h
      exact ⟨⟨rfl, rfl⟩, rfl, rfl⟩
  · injection h with h
    subst h
    exact ⟨⟨rfl, rfl⟩, rfl, rfl⟩

theorem applyBucket_frame (spec : ResolvedSpec) (config : AgentConfig) :
    KeepsAddrs config (applyBucket spec config) ∧
    KeepsTLS config (applyBucket spec config) ∧
    KeepsNet config (applyBucket spec config) := by
  unfold applyBucket
  split
  · exact ⟨⟨rfl, rfl⟩, ⟨rfl, rfl, rfl⟩, rfl⟩
  · exact ⟨⟨rfl, rfl⟩, ⟨rfl, rfl, rfl⟩, rfl⟩

theorem applyNetwork_frame (spec : ResolvedSpec) (config : AgentConfig) :
    KeepsAddrs config (applyNetwork spec config) ∧
    KeepsTLS config (applyNetwork spec config) ∧
    (applyNetwork spec config).BucketName = config.BucketName := by
  unfold applyNetwork
  split
  · exact ⟨⟨rfl, rfl⟩, ⟨rfl, rfl, rfl⟩, rfl⟩
  · exact ⟨⟨rfl, rfl⟩, ⟨rfl, rfl, rfl⟩, rfl⟩

theorem applyNetwork_networkType (spec : ResolvedSpec) (config : AgentConfig) :
    (applyNetwork spec config).NetworkType
      = match fetchOption spec "network" with
        | none => config.NetworkType
        | some valStr => if valStr = "default" then "" else valStr := by
  unfold applyNetwork
  split
  · rfl
  · rfl

theorem fromConnStr_parts {env : ConnStrEnv} {spec : ResolvedSpec}
    {config cfg' : AgentConfig}
    (h : FromConnStr env spec config = Except.ok cfg') :
    ∃ hosts c2, bootstrapHosts spec = Except.ok hosts ∧
      applyTLS env spec
          { config with MemdAddrs := hosts.1, HTTPAddrs := hosts.2 } = Except.ok c2 ∧
      applyOptions env spec (applyNetwork spec (applyBucket spec c2)) = Except.ok cfg' := by
  unfold FromConnStr at h
  obtain ⟨hosts, hb, h⟩ := except_bind_ok _ _ _ h
  obtain ⟨c2, ht, h⟩ := except_bind_ok _ _ _ h
  exact ⟨hosts, c2, hb, ht, h⟩

theorem fromConnStr_fields {env : ConnStrEnv} {spec : ResolvedSpec}
    {config cfg' : AgentConfig}
    (h : FromConnStr env spec config = Except.ok cfg') :
    ∃ hosts c2, bootstrapHosts spec = Except.ok hosts ∧
      applyTLS env spec
          { config with MemdAddrs := hosts.1, HTTPAddrs := hosts.2 } = Except.ok c2 ∧
      cfg'.MemdAddrs = hosts.1 ∧ cfg'.HTTPAddrs = hosts.2 ∧
      cfg'.UseTLS = c2.UseTLS ∧ cfg'.TLSSkipVerify = c2.TLSSkipVerify ∧
      cfg'.TLSRootCAs = c2.TLSRootCAs ∧
      cfg'.NetworkType = (applyNetwork spec (applyBucket spec c2)).NetworkType := by
  obtain ⟨hosts, c2, hb, ht, hopts⟩ := fromConnStr_parts h
  have htf := applyTLS_frame ht
  have hbf := applyBucket_frame spec c2
  have hnf := applyNetwork_frame spec (applyBucket spec c2)
  have hof := applyOptions_keepsCore hopts
  refine ⟨hosts, c2, hb, ht, ?_, ?_, ?_, ?_, ?_, ?_⟩
  · exact (((hof.1.1.trans hnf.1.1).trans hbf.1.1).trans htf.1.1).trans rfl
  · exact (((hof.1.2.trans hnf.1.2).trans hbf.1.2).trans htf.1.2).trans rfl
  · exact (hof.2.1.1.trans hnf.2.1.1).trans hbf.2.1.1
  · exact (hof.2.1.2.1.trans hnf.2.1.2.1).trans hbf.2.1.2.1
  · exact (hof.2.1.2.2.trans hnf.2.1.2.2).trans hbf.2.1.2.2
  · exact hof.2.2

/-! ## bootstrapHosts and error propagation -/

theorem bootstrapHosts_http {spec : ResolvedSpec} {hosts : List String × List String}
    (hbo : (fetchOption spec "bootstrap_on").getD "" = "http")
    (h : bootstrapHosts spec = Except.ok hosts) :
    hosts = ([], spec.HttpHosts.map formatHost) := by
  unfold bootstrapHosts at h
  split at h
  · split at h
    · exact Except.noConfusion h
    · injection h with h
      exact h.symm
  · exact absurd (hbo.symm.trans (by assumption)) (by decide)
  · exact absurd (hbo.symm.trans (by assumption)) (by decide)
  · exact absurd (hbo.symm.trans (by assumption)) (by decide)
  · rename_i hne _ _ _
    exact absurd hbo (by simpa using hne)

theorem bootstrapHosts_cccp {spec : ResolvedSpec} {hosts : List String × List String}
    (hbo : (fetchOption spec "bootstrap_on").getD "" = "cccp")
    (h : bootstrapHosts spec = Except.ok hosts) :
    hosts = (spec.MemdHosts.map formatHost, []) := by
  unfold bootstrapHosts at h
  split at h
  · exact absurd (hbo.symm.trans (by assumption)) (by decide)
  · split at h
    · exact Except.noConfusion h
    · injection h with h
      exact h.symm
  · exact absurd (hbo.symm.trans (by assumption)) (by decide)
  · exact absurd (hbo.symm.trans (by assumption)) (by decide)
  · rename_i _ hne _ _
    exact absurd hbo (by simpa using hne)

theorem bootstrapHosts_default {spec : ResolvedSpec} {hosts : List String × List String}
    (hbo1 : (fetchOption spec "bootstrap_on").getD "" ≠ "http")
    (hbo2 : (fetchOption spec "bootstrap_on").getD "" ≠ "cccp")
    (h : bootstrapHosts spec = Except.ok hosts) :
    hosts = (spec.MemdHosts.map formatHost, spec.HttpHosts.map formatHost) := by
  unfold bootstrapHosts at h
  split at h
  · exact absurd (by assumption) hbo1
  · exact absurd (by assumption) hbo2
  · injection h with h
    exact h.symm
  · injection h with h
    exact h.symm
  · exact Except.noConfusion h

theorem bootstrapHosts_http_empty {spec : ResolvedSpec}
    (hbo : (fetchOption spec "bootstrap_on").getD "" = "http")
    (hempty : spec.HttpHosts = []) :
    bootstrapHosts spec
      = Except.error "bootstrap_on=http but no HTTP hosts in connection string" := by
  unfold bootstrapHosts
  rw [hbo, hempty]
  rfl

theorem bootstrapHosts_cccp_empty {spec : ResolvedSpec}
    (hbo : (fetchOption spec "bootstrap_on").getD "" = "cccp")
    (hempty : spec.MemdHosts = []) :
    bootstrapHosts spec
      = Except.error "bootstrap_on=cccp but no CCCP/Memcached hosts in connection string" := by
  unfold bootstrapHosts
  rw [hbo, hempty]
  rfl

theorem fromConnStr_error_of_bootstrap {env : ConnStrEnv} {spec : ResolvedSpec}
    {config : AgentConfig} {e : String}
    (h : bootstrapHosts spec = Except.error e) :
    FromConnStr env spec config = Except.error e := by
  unfold FromConnStr
  rw [h]
  rfl

theorem fromConnStr_error_of_tls {env : ConnStrEnv} {spec : ResolvedSpec}
    {config : AgentConfig} {hosts : List String × List String} {e : String}
    (hb : bootstrapHosts spec = Except.ok hosts)
    (ht : applyTLS env spec
        { config with MemdAddrs := hosts.1, HTTPAddrs := hosts.2 } = Except.error e) :
    FromConnStr env spec config = Except.error e := by
  unfold FromConnStr
  rw [hb, except_ok_bind]
  show (applyTLS env spec _ >>= _) = _
  rw [ht]
  rfl

/-- C7: for every accepted connection string, the resulting config's
`MemdAddrs` and `HTTPAddrs` are exactly the resolved hosts formatted
`host:port`, except that `bootstrap_on=http` clears `MemdAddrs` and
`bootstrap_on=cccp` clears `HTTPAddrs`; in each cleared case `FromConnStr`
fails with an error when the surviving list is empty. -/
theorem claim7_fromConnStr_addrs (env : ConnStrEnv) (spec : ResolvedSpec)
    (config : AgentConfig) :
    ((fetchOption spec "bootstrap_on").getD "" = "http" →
      (∀ cfg', FromConnStr env spec config = Except.ok cfg' →
        cfg'.MemdAddrs = [] ∧ cfg'.HTTPAddrs = spec.HttpHosts.map formatHost) ∧
      (spec.HttpHosts = [] → ∃ e, FromConnStr env spec config = Except.error e)) ∧
    ((fetchOption spec "bootstrap_on").getD "" = "cccp" →
      (∀ cfg', FromConnStr env spec config = Except.ok cfg' →
        cfg'.MemdAddrs = spec.MemdHosts.map formatHost ∧ cfg'.HTTPAddrs = []) ∧
      (spec.MemdHosts = [] → ∃ e, FromConnStr env spec config = Except.error e)) ∧
    ((fetchOption spec "bootstrap_on").getD "" ≠ "http" →
      (fetchOption spec "bootstrap_on").getD "" ≠ "cccp" →
      ∀ cfg', FromConnStr env spec config = Except.ok cfg' →
        cfg'.MemdAddrs = spec.MemdHosts.map formatHost ∧
        cfg'.HTTPAddrs = spec.HttpHosts.map formatHost) := by
  refine ⟨fun hbo => ⟨fun cfg' h => ?_, fun hempty => ?_⟩,
          fun hbo => ⟨fun cfg' h => ?_, fun hempty => ?_⟩,
          fun hbo1 hbo2 cfg' h => ?_⟩
  · obtain ⟨hosts, c2, hb, ht, hm, hh, _, _, _, _⟩ := fromConnStr_fields h
    have heq := bootstrapHosts_http hbo hb
    subst heq
    exact ⟨hm, hh⟩
  · exact ⟨_, fromConnStr_error_of_bootstrap (bootstrapHosts_http_empty hbo hempty)⟩
  · obtain ⟨hosts, c2, hb, ht, hm, hh, _, _, _, _⟩ := fromConnStr_fields h
    have heq := bootstrapHosts_cccp hbo hb
    subst heq
    exact ⟨hm, hh⟩
  · exact ⟨_, fromConnStr_error_of_bootstrap (bootstrapHosts_cccp_empty hbo hempty)⟩
  · obtain ⟨hosts, c2, hb, ht, hm, hh, _, _, _, _⟩ := fromConnStr_fields h
    have heq := bootstrapHosts_default hbo1 hbo2 hb
    subst heq
    exact ⟨hm, hh⟩

/-! ## loadCACerts and the TLS block -/

theorem loadCACerts_ok {env : ConnStrEnv} {paths : List String} {r : CertPool}
    (acc : CertPool) (h : loadCACerts env paths acc = Except.ok r) :
    r = acc ++ paths.flatMap (fun p => env.pemCerts ((env.readFile p).getD "")) := by
  induction paths generalizing acc with
  | nil =>
      unfold loadCACerts at h
      injection h with h
      subst h
      simp
  | cons q rest ih =>
      unfold loadCACerts at h
      split at h
      · exact Except.noConfusion h
      · rename_i c hq
        split at h
        · exact Except.noConfusion h
        · have hr := ih (acc ++ env.pemCerts c) h
          rw [hr]
          simp [hq, List.append_assoc]

theorem loadCACerts_fail {env : ConnStrEnv} {paths : List String} {p : String}
    (acc : CertPool) (hmem : p ∈ paths)
    (hbad : env.readFile p = none ∨ env.pemCerts ((env.readFile p).getD "") = []) :
    ∃ e, loadCACerts env paths acc = Except.error e := by
  revert hmem
  induction paths generalizing acc with
  | nil =>
      intro hmem
      cases hmem
  | cons q rest ih =>
      intro hmem
      cases hq : env.readFile q with
      | none => exact ⟨_, by rw [loadCACerts, hq]⟩
      | some c =>
          by_cases hc : (env.pemCerts c).length = 0
          · exact ⟨_, by simp only [loadCACerts, hq]; rw [if_pos hc]⟩
          · cases hmem with
            | head =>
                rw [hq] at hbad
                rcases hbad with hbad | hbad
                · exact Option.noConfusion hbad
                · simp only [Option.getD_some] at hbad
                  exact absurd (show (env.pemCerts c).length = 0 by rw [hbad]; rfl) hc
            | tail _ hmem =>
                obtain ⟨e, he⟩ := ih (acc ++ env.pemCerts c) hmem
                exact ⟨e, by simp only [loadCACerts, hq]; rw [if_neg hc]; exact he⟩

theorem applyTLS_ssl_noca {env : ConnStrEnv} {spec : ResolvedSpec}
    {config c' : AgentConfig}
    (hssl : spec.UseSsl = true) (hca : spec.Options "ca_cert_path" = [])
    (h : applyTLS env spec config = Except.ok c') :
    c' = { config with TLSSkipVerify := true, UseTLS := true } := by
  unfold applyTLS at h
  rw [if_pos hssl, if_neg (by rw [hca]; decide)] at h
  injection h with h
  exact h.symm

theorem applyTLS_ssl_ca {env : ConnStrEnv} {spec : ResolvedSpec}
    {config c' : AgentConfig}
    (hssl : spec.UseSsl = true) (hca : (spec.Options "ca_cert_path").length > 0)
    (h : applyTLS env spec config = Except.ok c') :
    ∃ roots, loadCACerts env (spec.Options "ca_cert_path") [] = Except.ok roots ∧
      c' = { config with TLSRootCAs := some roots, UseTLS := true } := by
  unfold applyTLS at h
  rw [if_pos hssl, if_pos hca] at h
  split at h
  · exact Except.noConfusion h
  · rename_i roots hload
    injection h with h
    exact ⟨roots, hload, h.symm⟩

theorem applyTLS_error_of_load {env : ConnStrEnv} {spec : ResolvedSpec}
    {config : AgentConfig} {e : String}
    (hssl : spec.UseSsl = true) (hca : (spec.Options "ca_cert_path").length > 0)
    (hload : loadCACerts env (spec.Options "ca_cert_path") [] = Except.error e) :
    applyTLS env spec config = Except.error e := by
  unfold applyTLS
  rw [if_pos hssl, if_pos hca, hload]

/-- Any `ca_cert_path` occurrence whose file fails to read or to parse
makes `FromConnStr` fail, whichever phase reports first. -/
theorem fromConnStr_error_of_bad_cert {env : ConnStrEnv} {spec : ResolvedSpec}
    {config : AgentConfig} {p : String}
    (hssl : spec.UseSsl = true) (hmem : p ∈ spec.Options "ca_cert_path")
    (hbad : env.readFile p = none ∨ env.pemCerts ((env.readFile p).getD "") = []) :
    ∃ e, FromConnStr env spec config = Except.error e := by
  cases hbs : bootstrapHosts spec with
  | error e => exact ⟨e, fromConnStr_error_of_bootstrap hbs⟩
  | ok hosts =>
      have hlen : (spec.Options "ca_cert_path").length > 0 :=
        List.length_pos.mpr (List.ne_nil_of_mem hmem)
      obtain ⟨e, hload⟩ := loadCACerts_fail [] hmem hbad
      exact ⟨e, fromConnStr_error_of_tls hbs (applyTLS_error_of_load hssl hlen hload)⟩

/-- C8: for an SSL-enabled resolved connection string with no
`ca_cert_path` option, `FromConnStr` enables TLS with certificate
verification silently disabled (`TLSSkipVerify = true`); with one or more
`ca_cert_path` values every referenced file's PEM certificates are loaded
into `TLSRootCAs` while `TLSSkipVerify` stays false; and any listed file
that fails to read or yields no PEM certificate makes `FromConnStr` return
an error. -/
theorem claim8_tls_behavior (env : ConnStrEnv) (spec : ResolvedSpec)
    (config : AgentConfig)
    (hssl : spec.UseSsl = true) (hskip : config.TLSSkipVerify = false) :
    (spec.Options "ca_cert_path" = [] →
      ∀ cfg', FromConnStr env spec config = Except.ok cfg' →
        cfg'.UseTLS = true ∧ cfg'.TLSSkipVerify = true) ∧
    ((spec.Options "ca_cert_path").length > 0 →
      ∀ cfg', FromConnStr env spec config = Except.ok cfg' →
        cfg'.UseTLS = true ∧ cfg'.TLSSkipVerify = false ∧
        cfg'.TLSRootCAs = some ((spec.Options "ca_cert_path").flatMap
          (fun p => env.pemCerts ((env.readFile p).getD "")))) ∧
    (∀ p, p ∈ spec.Options "ca_cert_path" →
      (env.readFile p = none ∨ env.pemCerts ((env.readFile p).getD "") = []) →
      ∃ e, FromConnStr env spec config = Except.error e) := by
  refine ⟨fun hca cfg' h => ?_, fun hca cfg' h => ?_, fun p hmem hbad => ?_⟩
  · obtain ⟨hosts, c2, hb, ht, _, _, hu, hs, hr, hn⟩ := fromConnStr_fields h
    have hc2 := applyTLS_ssl_noca hssl hca ht
    subst hc2
    exact ⟨hu, hs⟩
  · obtain ⟨hosts, c2, hb, ht, _, _, hu, hs, hr, hn⟩ := fromConnStr_fields h
    obtain ⟨roots, hload, hc2⟩ := applyTLS_ssl_ca hssl hca ht
    have hroots := loadCACerts_ok [] hload
    subst hc2
    exact ⟨hu, hs.trans hskip, hr.trans (congrArg some hroots)⟩
  · exact fromConnStr_error_of_bad_cert hssl hmem hbad

/-- Witness for C8: a concrete SSL spec with no CA path skips verification;
one with `good.pem` loads its certificate and keeps verification; one with
an unreadable path fails. -/
theorem claim8_tls_behavior_witness :
    (sampleSslSpec []).UseSsl = true ∧ defaultAgentConfig.TLSSkipVerify = false ∧
    (∃ cfg', FromConnStr sampleEnv (sampleSslSpec []) defaultAgentConfig
        = Except.ok cfg' ∧ cfg'.UseTLS = true ∧ cfg'.TLSSkipVerify = true) ∧
    (∃ cfg', FromConnStr sampleEnv (sampleSslSpec ["good.pem"]) defaultAgentConfig
        = Except.ok cfg' ∧ cfg'.UseTLS = true ∧ cfg'.TLSSkipVerify = false ∧
        cfg'.TLSRootCAs = some ["CERTA"]) ∧
    (∃ e, FromConnStr sampleEnv (sampleSslSpec ["bad.pem"]) defaultAgentConfig
        = Except.error e) := by
  refine ⟨rfl, rfl, ?_, ?_, ?_⟩
  · have h := (claim8_tls_behavior sampleEnv (sampleSslSpec []) defaultAgentConfig
      rfl rfl).1 rfl
    exact ⟨_, rfl, h _ rfl⟩
  · have h := (claim8_tls_behavior sampleEnv (sampleSslSpec ["good.pem"])
      defaultAgentConfig rfl rfl).2.1 (by decide)
    exact ⟨_, rfl, (h _ rfl).1, (h _ rfl).2.1, (h _ rfl).2.2⟩
  · exact (claim8_tls_behavior sampleEnv (sampleSslSpec ["bad.pem"]) defaultAgentConfig
      rfl rfl).2.2 "bad.pem" (by decide) (Or.inl (by decide))

/-- C10 counterexample: `FromConnStr` does not ignore earlier occurrences
of every repeated option.  With `ca_cert_path` appearing twice — first an
unreadable `bad.pem`, last a readable `good.pem` — `FromConnStr` fails,
while on the same connection string reduced to the last occurrence alone it
succeeds; so the two runs differ. -/
theorem claim10_counterexample :
    (∃ e, FromConnStr sampleEnv (sampleSslSpec ["bad.pem", "good.pem"])
        defaultAgentConfig = Except.error e) ∧
    (∃ cfg, FromConnStr sampleEnv (sampleSslSpec ["good.pem"])
        defaultAgentConfig = Except.ok cfg) ∧
    FromConnStr sampleEnv (sampleSslSpec ["bad.pem", "good.pem"]) defaultAgentConfig
      ≠ FromConnStr sampleEnv (sampleSslSpec ["good.pem"]) defaultAgentConfig := by
  refine ⟨⟨_, rfl⟩, ⟨_, rfl⟩, ?_⟩
  intro h
  have h1 : FromConnStr sampleEnv (sampleSslSpec ["bad.pem", "good.pem"])
      defaultAgentConfig = Except.error "open bad.pem: no such file or directory" := rfl
  obtain ⟨cfg, h2⟩ : ∃ cfg, FromConnStr sampleEnv (sampleSslSpec ["good.pem"])
      defaultAgentConfig = Except.ok cfg := ⟨_, rfl⟩
  rw [h1, h2] at h
  exact Except.noConfusion h

/-- C10 (amended): for every option read through the `fetchOption` closure
— that is, every supported option except `ca_cert_path` — only the last
occurrence is used and earlier ones are ignored, and an option whose
resolved value list is empty is treated as absent, leaving the
corresponding config field at its prior value; `ca_cert_path` instead uses
all of its occurrences, so any occurrence's failing file fails the call.
Shown on `fetchOption` itself and on the `network` option end to end. -/
theorem claim10_last_occurrence_amended (env : ConnStrEnv) (spec : ResolvedSpec)
    (config : AgentConfig) (name : String) (l : List String) (v : String) :
    (spec.Options name = l ++ [v] → fetchOption spec name = some v) ∧
    (spec.Options name = [] → fetchOption spec name = none) ∧
    (spec.Options "network" = [] →
      ∀ cfg', FromConnStr env spec config = Except.ok cfg' →
        cfg'.NetworkType = config.NetworkType) ∧
    (∀ w, w ≠ "default" → spec.Options "network" = l ++ [w] →
      ∀ cfg', FromConnStr env spec config = Except.ok cfg' →
        cfg'.NetworkType = w) ∧
    (spec.UseSsl = true →
      ∀ p, p ∈ spec.Options "ca_cert_path" → env.readFile p = none →
        ∃ e, FromConnStr env spec config = Except.error e) := by
  refine ⟨fun hopt => ?_, fun hopt => ?_, fun hnet cfg' h => ?_,
          fun w hw hnet cfg' h => ?_, fun hssl p hmem hread => ?_⟩
  · unfold fetchOption
    rw [hopt]
    exact List.getLast?_concat l
  · unfold fetchOption
    rw [hopt]
    rfl
  · obtain ⟨hosts, c2, hb, ht, _, _, _, _, _, hn⟩ := fromConnStr_fields h
    have hf : fetchOption spec "network" = none := by
      unfold fetchOption
      rw [hnet]
      rfl
    rw [hn, applyNetwork_networkType, hf]
    exact ((applyBucket_frame spec c2).2.2).trans ((applyTLS_frame ht).2.1)
  · obtain ⟨hosts, c2, hb, ht, _, _, _, _, _, hn⟩ := fromConnStr_fields h
    have hf : fetchOption spec "network" = some w := by
      unfold fetchOption
      rw [hnet]
      exact List.getLast?_concat l
    rw [hn, applyNetwork_networkType, hf]
    show (if w = "default" then "" else w) = w
    rw [if_neg hw]
  · exact fromConnStr_error_of_bad_cert hssl hmem (Or.inl hread)

/-! ## Slice-heap lemmas and the redacted frame property -/

theorem sliceRead_concat_lt {h : Heap} {i : Nat} (xs : List String)
    (hi : i < h.length) : sliceRead (h ++ [xs]) i = sliceRead h i := by
  unfold sliceRead
  rw [List.getD_eq_getElem?_getD, List.getD_eq_getElem?_getD,
    List.getElem?_append_left hi]

theorem sliceRead_concat_self (h : Heap) (xs : List String) :
    sliceRead (h ++ [xs]) h.length = xs := by
  unfold sliceRead
  rw [List.getD_eq_getElem?_getD, List.getElem?_concat_length]
  rfl

theorem sliceRead_set_ne {i j : Nat} (h : Heap) (xs : List String) (hne : i ≠ j) :
    sliceRead (sliceWrite h i xs) j = sliceRead h j := by
  unfold sliceRead sliceWrite
  rw [List.getD_eq_getElem?_getD, List.getD_eq_getElem?_getD,
    List.getElem?_set_ne hne]

theorem sliceRead_set_self {i : Nat} (h : Heap) (xs : List String)
    (hi : i < h.length) : sliceRead (sliceWrite h i xs) i = xs := by
  unfold sliceRead sliceWrite
  rw [List.getD_eq_getElem?_getD, List.getElem?_set_self hi]
  rfl

theorem copyRedactSlice_len (f : String → String) (h : Heap) (r : Nat) :
    (copyRedactSlice f h r).1.length = h.length + 1 := by
  unfold copyRedactSlice allocSlice sliceWrite
  rw [List.length_set, List.length_append]
  rfl

theorem copyRedactSlice_ref (f : String → String) (h : Heap) (r : Nat) :
    (copyRedactSlice f h r).2 = h.length := rfl

theorem copyRedactSlice_preserves (f : String → String) (h : Heap) (r : Nat)
    {j : Nat} (hj : j < h.length) :
    sliceRead (copyRedactSlice f h r).1 j = sliceRead h j := by
  unfold copyRedactSlice allocSlice
  exact (sliceRead_set_ne _ _ (Nat.ne_of_gt hj)).trans (sliceRead_concat_lt _ hj)

theorem copyRedactSlice_new (f : String → String) (h : Heap) (r : Nat) :
    sliceRead (copyRedactSlice f h r).1 h.length = (sliceRead h r).map f := by
  unfold copyRedactSlice allocSlice
  have hlt : h.length < (h ++ [sliceRead h r]).length := by
    simp
  rw [sliceRead_set_self _ _ hlt, sliceRead_concat_self]

/-- `redacted` under full redaction, written as two copy-and-redact slice
steps; equal by unfolding. -/
theorem redacted_true (rs rm : String → String) (h : Heap) (c : AgentConfigRef) :
    redacted true rs rm h c
      = ((copyRedactSlice rs (copyRedactSlice rs h c.HTTPAddrs).1 c.MemdAddrs).1,
         { c with
             HTTPAddrs := (copyRedactSlice rs h c.HTTPAddrs).2,
             MemdAddrs := (copyRedactSlice rs (copyRedactSlice rs h c.HTTPAddrs).1 c.MemdAddrs).2,
             BucketName := if c.BucketName ≠ "" then rm c.BucketName
               else c.BucketName }) := rfl

/-- C9: `redacted` returns a copy and leaves the receiver's heap cells
untouched for every redaction level: the backing arrays behind the
receiver's `HTTPAddrs` and `MemdAddrs` read the same afterwards; under full
redaction the copy holds fresh slices (different references) whose contents
are the element-wise redaction, and under partial redaction the heap and
config are returned unchanged. -/
theorem claim9_redacted_frame (full : Bool) (rs rm : String → String)
    (h : Heap) (c : AgentConfigRef)
    (hH : c.HTTPAddrs < h.length) (hM : c.MemdAddrs < h.length) :
    sliceRead (redacted full rs rm h c).1 c.HTTPAddrs = sliceRead h c.HTTPAddrs ∧
    sliceRead (redacted full rs rm h c).1 c.MemdAddrs = sliceRead h c.MemdAddrs ∧
    (redacted full rs rm h c).2.UserAgent = c.UserAgent ∧
    (full = true →
      (redacted full rs rm h c).2.HTTPAddrs ≠ c.HTTPAddrs ∧
      (redacted full rs rm h c).2.MemdAddrs ≠ c.MemdAddrs ∧
      sliceRead (redacted full rs rm h c).1 (redacted full rs rm h c).2.HTTPAddrs
        = (sliceRead h c.HTTPAddrs).map rs ∧
      sliceRead (redacted full rs rm h c).1 (redacted full rs rm h c).2.MemdAddrs
        = (sliceRead h c.MemdAddrs).map rs) ∧
    (full = false → redacted full rs rm h c = (h, c)) := by
  cases full with
  | false =>
      exact ⟨rfl, rfl, rfl, fun hx => Bool.noConfusion hx, fun _ => rfl⟩
  | true =>
      have hlen1 : (copyRedactSlice rs h c.HTTPAddrs).1.length = h.length + 1 :=
        copyRedactSlice_len rs h c.HTTPAddrs
      have hj1 : c.HTTPAddrs < (copyRedactSlice rs h c.HTTPAddrs).1.length := by
        rw [hlen1]
        omega
      have hj2 : c.MemdAddrs < (copyRedactSlice rs h c.HTTPAddrs).1.length := by
        rw [hlen1]
        omega
      have hj3 : h.length < (copyRedactSlice rs h c.HTTPAddrs).1.length := by
        rw [hlen1]
        omega
      refine ⟨?_, ?_, rfl, fun _ => ⟨?_, ?_, ?_, ?_⟩, fun hx => Bool.noConfusion hx⟩
      · show sliceRead (copyRedactSlice rs (copyRedactSlice rs h c.HTTPAddrs).1
            c.MemdAddrs).1 c.HTTPAddrs = sliceRead h c.HTTPAddrs
        rw [copyRedactSlice_preserves _ _ _ hj1, copyRedactSlice_preserves _ _ _ hH]
      · show sliceRead (copyRedactSlice rs (copyRedactSlice rs h c.HTTPAddrs).1
            c.MemdAddrs).1 c.MemdAddrs = sliceRead h c.MemdAddrs
        rw [copyRedactSlice_preserves _ _ _ hj2, copyRedactSlice_preserves _ _ _ hM]
      · show (copyRedactSlice rs h c.HTTPAddrs).2 ≠ c.HTTPAddrs
        rw [copyRedactSlice_ref]
        omega
      · show (copyRedactSlice rs (copyRedactSlice rs h c.HTTPAddrs).1
            c.MemdAddrs).2 ≠ c.MemdAddrs
        rw [copyRedactSlice_ref, hlen1]
        omega
      · show sliceRead (copyRedactSlice rs (copyRedactSlice rs h c.HTTPAddrs).1
            c.MemdAddrs).1 (copyRedactSlice rs h c.HTTPAddrs).2
            = (sliceRead h c.HTTPAddrs).map rs
        rw [copyRedactSlice_ref, copyRedactSlice_preserves _ _ _ hj3,
          copyRedactSlice_new]
      · show sliceRead (copyRedactSlice rs (copyRedactSlice rs h c.HTTPAddrs).1
            c.MemdAddrs).1 (copyRedactSlice rs (copyRedactSlice rs h c.HTTPAddrs).1
            c.MemdAddrs).2 = (sliceRead h c.MemdAddrs).map rs
        rw [copyRedactSlice_ref, copyRedactSlice_new,
          copyRedactSlice_preserves _ _ _ hM]

/-- Witness for C9 on a concrete two-cell heap. -/
theorem claim9_redacted_frame_witness :
    (0 : Nat) < 2 ∧ (1 : Nat) < 2 ∧
    (sliceRead (redacted true (fun _ => "<ud>") (fun _ => "<md>")
        [["db1:8091"], ["db1:11210"]]
        { UserAgent := "ua", MemdAddrs := 1, HTTPAddrs := 0, BucketName := "b" }).1 0
      = sliceRead [["db1:8091"], ["db1:11210"]] 0) ∧
    (sliceRead (redacted true (fun _ => "<ud>") (fun _ => "<md>")
        [["db1:8091"], ["db1:11210"]]
        { UserAgent := "ua", MemdAddrs := 1, HTTPAddrs := 0, BucketName := "b" }).1 1
      = sliceRead [["db1:8091"], ["db1:11210"]] 1) := by
  have h := claim9_redacted_frame true (fun _ => "<ud>") (fun _ => "<md>")
    [["db1:8091"], ["db1:11210"]]
    { UserAgent := "ua", MemdAddrs := 1, HTTPAddrs := 0, BucketName := "b" }
    (by decide) (by decide)
  exact ⟨by decide, by decide, h.1, h.2.1⟩

/-- Witness for C6 at concrete failure and probe instants. -/
theorem claim6_circuit_breaker_witness :
    (((Breaker.fresh.reportFailure 0).reportFailure 10).state = CBState.closed) ∧
    ((((Breaker.fresh.reportFailure 0).reportFailure 10).reportFailure 20)
      = { state := CBState.opened, failCount := 0, probeAt := 20 + cbCooldownMs }) ∧
    ((Breaker.mk CBState.opened 0 (20 + cbCooldownMs)).allow 50
      = (false, Breaker.mk CBState.opened 0 (20 + cbCooldownMs))) ∧
    ((Breaker.mk CBState.opened 0 (20 + cbCooldownMs)).allow 200
      = (true, Breaker.mk CBState.halfOpen 0 (20 + cbCooldownMs))) ∧
    (((Breaker.mk CBState.halfOpen 0 (20 + cbCooldownMs)).allow 7).1 = false) ∧
    ((Breaker.mk CBState.halfOpen 0 (20 + cbCooldownMs)).reportSuccess.state
      = CBState.closed) ∧
    ((Breaker.mk CBState.halfOpen 0 (20 + cbCooldownMs)).reportFailure 300
      = { state := CBState.opened, failCount := 0, probeAt := 300 + cbCooldownMs }) :=
  claim6_circuit_breaker 0 10 20 50 200 7 300 (by decide) (by decide)

end Gocbcore
